import Mathlib

/-!
Verification of `cli/src/git_util.rs` (jj): credential resolution,
secure-entry response decoding, and remote-synchronization reporting.

Strings are embedded as `List Char` (paths, names, rendered text) and raw
byte sequences as `List Nat` (each element a byte value < 256).  Display
width is a parameter `w : Char → Nat` standing for `unicode_width`'s
per-character width.  The filesystem, the repository view and the
interactive terminal are oracles passed as functions.
-/

/-! ## Reference data model (mirrors `RefName`, `RemoteRef`, `RefTarget`) -/

/-- `jj_lib::git::RefName`: a changed reference's identifier. -/
inductive RefName where
  | RemoteBranch (branch remote : List Char)
  | Tag (tag : List Char)
  | LocalBranch (branch : List Char)
deriving DecidableEq

/-- `jj_lib::op_store::RefTarget`, reduced to the one query the file makes
of it (`is_absent`). -/
structure RefTarget where
  is_absent : Bool
deriving DecidableEq

/-- `jj_lib::op_store::RemoteRef`, reduced to its `target` field. -/
structure RemoteRef where
  target : RefTarget
deriving DecidableEq

inductive RefKind where
  | Branch
  | Tag
deriving DecidableEq

inductive TrackingStatus where
  | Tracked
  | Untracked
  | NotApplicable
deriving DecidableEq

inductive ImportStatus where
  | New
  | Deleted
  | Updated
deriving DecidableEq

structure RefStatus where
  ref_kind : RefKind
  ref_name : List Char
  tracking_status : TrackingStatus
  import_status : ImportStatus
deriving DecidableEq

/-- `RefStatus::new`.  `isTracking branch remote` stands for
`repo.view().get_remote_branch(branch, remote).is_tracking()`. -/
def RefStatus.new (isTracking : List Char → List Char → Bool)
    (ref_name : RefName) (remote_ref : RemoteRef) (ref_target : RefTarget) :
    RefStatus :=
  let p : List Char × RefKind × TrackingStatus :=
    match ref_name with
    | RefName.RemoteBranch branch remote =>
        (branch ++ "@".data ++ remote, RefKind.Branch,
          if isTracking branch remote then TrackingStatus.Tracked
          else TrackingStatus.Untracked)
    | RefName.Tag tag => (tag, RefKind.Tag, TrackingStatus.NotApplicable)
    | RefName.LocalBranch branch =>
        (branch, RefKind.Branch, TrackingStatus.Tracked)
  let import_status :=
    match remote_ref.target.is_absent, ref_target.is_absent with
    | true, false => ImportStatus.New
    | false, true => ImportStatus.Deleted
    | _, _ => ImportStatus.Updated
  { ref_kind := p.2.1, ref_name := p.1, tracking_status := p.2.2,
    import_status := import_status }

/-! ## Secure-entry-agent response decoding (`pinentry_get_pw` and its
inner `decode_assuan_data`), at the byte level.  A byte is a `Nat` < 256;
byte 37 is the percent sign, 43 the plus sign, 10 the newline. -/

/-- ASCII hexadecimal digit, as accepted by `char::to_digit(16)`. -/
def isHexDigit (b : Nat) : Bool :=
  (48 ≤ b && b ≤ 57) || (65 ≤ b && b ≤ 70) || (97 ≤ b && b ≤ 102)

/-- Value of an ASCII hexadecimal digit. -/
def hexVal (b : Nat) : Nat :=
  if b ≤ 57 then b - 48 else if b ≤ 70 then b - 55 else b - 87

/-- `u8::from_str_radix(std::str::from_utf8(&[b1, b2])?, 16)`: parses the
two raw bytes following a percent sign.  `from_str_radix` on an unsigned
type accepts an optional leading `+` sign before the digits, so besides
two hex digits it also accepts a plus sign followed by one hex digit; every
successful parse uses only ASCII bytes, so the inner UTF-8 check of the
two-byte slice never rejects an otherwise parseable escape. -/
def parseHexByte (b1 b2 : Nat) : Option Nat :=
  if isHexDigit b1 && isHexDigit b2 then some (16 * hexVal b1 + hexVal b2)
  else if b1 = 43 && isHexDigit b2 then some (hexVal b2)
  else none

/-- UTF-8 continuation byte (0x80..0xBF). -/
def utf8Cont (b : Nat) : Bool := 128 ≤ b && b ≤ 191

/-- Validity of a byte sequence as UTF-8 text, exactly the check performed
by Rust's `String::from_utf8` (RFC 3629: no overlong forms, no surrogates,
maximum U+10FFFF). -/
def validUtf8 : List Nat → Bool
  | [] => true
  | b :: rest =>
    if b < 128 then validUtf8 rest
    else if b < 194 then false
    else if b < 224 then
      match rest with
      | c1 :: rest2 => utf8Cont c1 && validUtf8 rest2
      | [] => false
    else if b < 240 then
      match rest with
      | c1 :: c2 :: rest2 =>
        (if b = 224 then 160 ≤ c1 && c1 ≤ 191
         else if b = 237 then 128 ≤ c1 && c1 ≤ 159
         else utf8Cont c1) && utf8Cont c2 && validUtf8 rest2
      | _ => false
    else if b < 245 then
      match rest with
      | c1 :: c2 :: c3 :: rest2 =>
        (if b = 240 then 144 ≤ c1 && c1 ≤ 191
         else if b = 244 then 128 ≤ c1 && c1 ≤ 143
         else utf8Cont c1) && utf8Cont c2 && utf8Cont c3 && validUtf8 rest2
      | _ => false
    else false

/-- The scanning loop of `decode_assuan_data`: walk the input bytes; a
non-percent byte passes through; a percent byte must be followed by two
bytes that `parseHexByte` accepts, which encode one raw output byte;
`encoded.get(i..i + 2)` returning `None` (fewer than two bytes remain) or a
parse failure aborts with `None`. -/
def decodeLoop : List Nat → Option (List Nat)
  | [] => some []
  | b :: rest =>
    if b = 37 then
      match rest with
      | b1 :: b2 :: rest2 =>
        match parseHexByte b1 b2 with
        | some v => (decodeLoop rest2).map (fun d => v :: d)
        | none => none
      | _ => none
    else (decodeLoop rest).map (fun d => b :: d)

/-- `decode_assuan_data`: scan the escapes, then `String::from_utf8(..).ok()`
on the decoded bytes.  Returns the decoded text's bytes. -/
def decode_assuan_data (l : List Nat) : Option (List Nat) :=
  (decodeLoop l).bind (fun d => if validUtf8 d then some d else none)

/-- Written from the claim: an escape is acceptable when it is exactly two
hex digits (the strict reading of "each `%` is followed by exactly two hex
digits"). -/
def strictEscByte (b1 b2 : Nat) : Bool := isHexDigit b1 && isHexDigit b2

/-- Written from the claim: every `%` in the byte sequence is followed by
exactly two hex digits (a trailing `%` or a `%` with fewer than two bytes
after it fails). -/
def escapesOkStrict : List Nat → Bool
  | [] => true
  | b :: rest =>
    if b = 37 then
      match rest with
      | b1 :: b2 :: rest2 => strictEscByte b1 b2 && escapesOkStrict rest2
      | _ => false
    else escapesOkStrict rest

/-- Amended escape acceptance: two hex digits, or a plus sign followed by
one hex digit (what `u8::from_str_radix` actually accepts). -/
def escByte (b1 b2 : Nat) : Bool :=
  (isHexDigit b1 && isHexDigit b2) || (b1 = 43 && isHexDigit b2)

/-- Amended well-formedness: every `%` is followed by two bytes accepted by
`escByte`. -/
def escapesOkA : List Nat → Bool
  | [] => true
  | b :: rest =>
    if b = 37 then
      match rest with
      | b1 :: b2 :: rest2 => escByte b1 b2 && escapesOkA rest2
      | _ => false
    else escapesOkA rest

/-- The decoded byte sequence of a well-formed input: passthrough bytes
unchanged, each escape replaced by the byte it encodes (meaningful when
`escapesOkA` holds). -/
def rawDecode : List Nat → List Nat
  | [] => []
  | b :: rest =>
    if b = 37 then
      match rest with
      | b1 :: b2 :: rest2 => (parseHexByte b1 b2).getD 0 :: rawDecode rest2
      | _ => []
    else b :: rawDecode rest

/-! ## Secret source adapters and the credential resolver -/

/-- `str::split('\n')` on a byte sequence: split on newline bytes (10);
`n` separators yield `n + 1` pieces, empty pieces kept. -/
def splitNL : List Nat → List (List Nat)
  | [] => [[]]
  | b :: rest =>
    if b = 10 then [] :: splitNL rest
    else
      match splitNL rest with
      | g :: gs => (b :: g) :: gs
      | [] => [[b]]

/-- The line scan of `pinentry_get_pw`: the first line starting with the
two-byte data marker `"D "` (bytes 68, 32) decides the result — its
remainder after `split_at(2)` is decoded, and a decode failure is final
(later lines are not tried); other lines are skipped; no data line means
`None`. -/
def findDataLine : List (List Nat) → Option (List Nat)
  | [] => none
  | line :: rest =>
    if line.take 2 = [68, 32] then decode_assuan_data (line.drop 2)
    else findDataLine rest

/-- `pinentry_get_pw`.  `agent url` stands for the full standard output of
the spawned `pinentry` child process for the four-line request naming
`url` (`none` when spawning or the piped I/O fails). -/
def pinentry_get_pw (agent : List Char → Option (List Nat))
    (url : List Char) : Option (List Nat) :=
  match agent url with
  | none => none
  | some out => findDataLine (splitNL out)

/-- `terminal_get_pw`.  `promptPw s` stands for
`ui.prompt_password(s).ok()`. -/
def terminal_get_pw (promptPw : List Char → Option (List Nat))
    (url : List Char) : Option (List Nat) :=
  promptPw ("Passphrase for ".data ++ url ++ ": ".data)

/-- The password-only callback installed by `with_remote_git_callbacks`:
`pinentry_get_pw(url).or_else(|| terminal_get_pw(*ui.lock().unwrap(), url))`. -/
def get_pw (agent promptPw : List Char → Option (List Nat))
    (url _username : List Char) : Option (List Nat) :=
  (pinentry_get_pw agent url).orElse (fun _ => terminal_get_pw promptPw url)

/-! ## Filesystem paths -/

/-- Unix `PathBuf::push` (hence `Path::join`): an absolute argument
replaces the base; otherwise a separator is inserted unless the base is
empty or already ends with one. -/
def pathJoin (base p : List Char) : List Char :=
  if p.head? = some '/' then p
  else if base = [] then p
  else if base.getLast? = some '/' then base ++ p
  else base ++ '/' :: p

/-- `str::strip_prefix` on character lists. -/
def stripPrefixList : List Char → List Char → Option (List Char)
  | [], l => some l
  | _ :: _, [] => none
  | p :: ps, c :: cs => if p = c then stripPrefixList ps cs else none

/-- `get_ssh_keys`: with a home directory, the conventional key files under
`.ssh` that exist as regular files, kept in the fixed priority order;
`isFile p` stands for `Path::is_file(p)`, `home_dir` for
`dirs::home_dir()`. -/
def get_ssh_keys (isFile : List Char → Bool) (home_dir : Option (List Char))
    (_username : List Char) : List (List Char) :=
  match home_dir with
  | none => []
  | some h =>
    let ssh_dir := pathJoin h ".ssh".data
    (["id_ed25519_sk".data, "id_ed25519".data, "id_rsa".data].map
      (fun filename => pathJoin ssh_dir filename)).filter isFile

/-- `expand_git_path`: expand a literal leading `"~/"` to `$HOME` joined
with the remainder; `home` stands for `std::env::var("HOME").ok()`; in
every other case (no `"~/"` prefix, or `HOME` unset) the path is returned
unchanged. -/
def expand_git_path (home : Option (List Char)) (path_str : List Char) :
    List Char :=
  match stripPrefixList "~/".data path_str with
  | some remainder =>
    match home with
    | some home_dir_str => pathJoin home_dir_str remainder
    | none => path_str
  | none => path_str

/-! ## Synchronization report rendering -/

/-- Display width of a string under the per-character width `w`
(`UnicodeWidthStr::width`). -/
def strWidth (w : Char → Nat) (s : List Char) : Nat := (s.map w).sum

/-- The name column of a report row: the reference name right-padded with
spaces to the maximum reference-name display width
(`format!("{}{:>pad_width$}", self.ref_name, "")` with
`pad_width = max_ref_name_width.saturating_sub(ref_name_display_width)`). -/
def paddedRefName (w : Char → Nat) (max_ref_name_width : Nat)
    (name : List Char) : List Char :=
  name ++ List.replicate (max_ref_name_width - strWidth w name) ' '

/-- The kind label of a report row: `"tag: "` is padded to the width of
`"branch: "` only when both kinds occur in the report. -/
def kindLabel (has_both_ref_kinds : Bool) : RefKind → List Char
  | RefKind.Branch => "branch: ".data
  | RefKind.Tag =>
    if !has_both_ref_kinds then "tag: ".data else "tag:    ".data

/-- `RefStatus::output`: one report line (the trailing newline of
`writeln!` is left off since lines are kept as list elements; the
`labeled` sink changes styling only, not the text). -/
def RefStatus.output (w : Char → Nat) (max_ref_name_width : Nat)
    (has_both_ref_kinds : Bool) (s : RefStatus) : List Char :=
  let tracking_status :=
    match s.tracking_status with
    | TrackingStatus.Tracked => "tracked".data
    | TrackingStatus.Untracked => "untracked".data
    | TrackingStatus.NotApplicable => "".data
  let import_status :=
    match s.import_status with
    | ImportStatus.New => "new".data
    | ImportStatus.Deleted => "deleted".data
    | ImportStatus.Updated => "updated".data
  kindLabel has_both_ref_kinds s.ref_kind
    ++ paddedRefName w max_ref_name_width s.ref_name
    ++ " [".data ++ import_status ++ "] ".data ++ tracking_status

/-- `Iterator::max` over natural numbers: `None` exactly on the empty
list. -/
def maxNat : List Nat → Option Nat
  | [] => none
  | x :: xs =>
    match maxNat xs with
    | none => some x
    | some m => some (max x m)

/-- `jj_lib::git::GitImportStats`, reduced to the two fields the reporter
reads; only the length of `abandoned_commits` matters. -/
structure GitImportStats where
  changed_remote_refs : List (RefName × RemoteRef × RefTarget)
  abandoned_commits : List Nat

/-- The per-reference block of `print_git_import_stats`: classify every
changed reference, compute the kind mix and the maximum name width, and
render one line per reference in the order supplied; an empty change set
renders nothing (`max()` is `None`). -/
def refLines (w : Char → Nat) (isTracking : List Char → List Char → Bool)
    (changed : List (RefName × RemoteRef × RefTarget)) : List (List Char) :=
  let refs_stats :=
    changed.map (fun t => RefStatus.new isTracking t.1 t.2.1 t.2.2)
  let has_both_ref_kinds :=
    (refs_stats.any (fun x =>
      match x.ref_kind with
      | RefKind.Branch => true
      | _ => false))
    && (refs_stats.any (fun x =>
      match x.ref_kind with
      | RefKind.Tag => true
      | _ => false))
  match maxNat (refs_stats.map (fun x => strWidth w x.ref_name)) with
  | some max_width =>
    refs_stats.map (fun status =>
      RefStatus.output w max_width has_both_ref_kinds status)
  | none => []

/-- The abandoned-commit count summary line. -/
def abandonedLine (n : Nat) : List Char :=
  "Abandoned ".data ++ (Nat.repr n).data
    ++ " commits that are no longer reachable.".data

/-- `print_git_import_stats`, as the list of lines written: the
per-reference report only when `show_ref_stats` was requested, then the
abandoned-commit summary only when some commits were abandoned. -/
def print_git_import_stats (w : Char → Nat)
    (isTracking : List Char → List Char → Bool) (stats : GitImportStats)
    (show_ref_stats : Bool) : List (List Char) :=
  (if show_ref_stats then refLines w isTracking stats.changed_remote_refs
   else [])
  ++ (if stats.abandoned_commits.isEmpty then []
      else [abandonedLine stats.abandoned_commits.length])

/-! ## Failed-export diagnostics -/

/-- `jj_lib::git::FailedRefExport` with its reason flattened to what the
printer consumes: the reference name, the rendered messages of the reason
and of its `source()` chain in the order `iter::successors` walks them,
and whether the reason matches `FailedRefExportReason::FailedToSet`. -/
structure FailedRefExport where
  name : List Char
  reason_chain : List (List Char)
  failed_to_set : Bool

/-- One failure line: two leading spaces, the (labeled) reference name,
then every chain message prefixed by `": "`. -/
def failedLine (f : FailedRefExport) : List Char :=
  "  ".data ++ f.name ++ (f.reason_chain.map (fun e => ": ".data ++ e)).flatten

/-- The fixed hint paragraph written through `ui.hint()`, one block. -/
def failedHint : List Char :=
  ("Hint: Git doesn't allow a branch name that looks like a parent directory of\n"
    ++ "another (e.g. `foo` and `foo/bar`). Try to rename the branches that failed to\n"
    ++ "export or their \"parent\" branches.").data

/-- `print_failed_git_export`, as the list of blocks written: nothing at
all for an empty list; otherwise a header, one line per failure, then the
hint exactly when some failure's reason is the `FailedToSet` kind. -/
def print_failed_git_export (failed_branches : List FailedRefExport) :
    List (List Char) :=
  if failed_branches.isEmpty then []
  else
    "Failed to export some branches:".data
      :: failed_branches.map failedLine
      ++ (if failed_branches.any (fun f => f.failed_to_set) then [failedHint]
          else [])

/-- C1: the import status of a changed-reference record is `New` iff the
previous remote-tracked target was absent and the new one present, `Deleted`
iff the previous was present and the new absent, and `Updated` exactly on
the two remaining (previous-absent, new-absent) combinations; the
classification is total, yielding exactly one of the three statuses. -/
theorem c1_import_status_classification
    (isTracking : List Char → List Char → Bool) (rn : RefName)
    (rr : RemoteRef) (rt : RefTarget) :
    ((RefStatus.new isTracking rn rr rt).import_status = ImportStatus.New
        ↔ rr.target.is_absent = true ∧ rt.is_absent = false)
    ∧ ((RefStatus.new isTracking rn rr rt).import_status = ImportStatus.Deleted
        ↔ rr.target.is_absent = false ∧ rt.is_absent = true)
    ∧ ((RefStatus.new isTracking rn rr rt).import_status = ImportStatus.Updated
        ↔ rr.target.is_absent = rt.is_absent)
    ∧ ((RefStatus.new isTracking rn rr rt).import_status = ImportStatus.New
        ∨ (RefStatus.new isTracking rn rr rt).import_status = ImportStatus.Deleted
        ∨ (RefStatus.new isTracking rn rr rt).import_status = ImportStatus.Updated) := by
  obtain ⟨⟨pa⟩⟩ := rr
  obtain ⟨na⟩ := rt
  cases pa <;> cases na <;> cases rn <;>
    simp [RefStatus.new]

/-- C3: tracking status is `NotApplicable` iff the kind is `Tag`; a
local-branch record is always `Tracked`; a remote-tracked-branch record is
`Tracked` exactly when the view reports the pair as tracking, else
`Untracked`. -/
theorem c3_tracking_classification
    (isTracking : List Char → List Char → Bool)
    (rr : RemoteRef) (rt : RefTarget) :
    (∀ rn : RefName,
      (RefStatus.new isTracking rn rr rt).tracking_status = TrackingStatus.NotApplicable
        ↔ (RefStatus.new isTracking rn rr rt).ref_kind = RefKind.Tag)
    ∧ (∀ branch : List Char,
      (RefStatus.new isTracking (RefName.LocalBranch branch) rr rt).tracking_status
        = TrackingStatus.Tracked)
    ∧ (∀ branch remote : List Char,
      (RefStatus.new isTracking (RefName.RemoteBranch branch remote) rr rt).tracking_status
        = if isTracking branch remote then TrackingStatus.Tracked
          else TrackingStatus.Untracked) := by
  refine ⟨fun rn => ?_, fun branch => ?_, fun branch remote => ?_⟩
  · cases rn <;> simp [RefStatus.new]
    split <;> simp
  · simp [RefStatus.new]
  · simp [RefStatus.new]

/-- Helper: `parseHexByte` succeeds exactly on the escapes `escByte`
accepts. -/
theorem parseHexByte_isSome (b1 b2 : Nat) :
    (parseHexByte b1 b2).isSome = escByte b1 b2 := by
  unfold parseHexByte escByte
  split
  · simp_all
  · split <;> simp_all

/-- Helper: the scanning loop succeeds exactly on inputs whose escapes are
all accepted, and then yields the escape-decoded byte sequence. -/
theorem decodeLoop_eq (l : List Nat) :
    decodeLoop l = if escapesOkA l then some (rawDecode l) else none := by
  induction l using decodeLoop.induct with
  | case1 => rfl
  | case2 b1 b2 rest2 v hp ih =>
    have he : escByte b1 b2 = true := by
      have h := parseHexByte_isSome b1 b2
      rw [hp] at h
      exact h.symm
    rw [decodeLoop.eq_def, escapesOkA.eq_def, rawDecode.eq_def]
    by_cases hrest : escapesOkA rest2 <;> simp [hp, he, hrest, ih]
  | case3 b1 b2 rest2 hp =>
    have he : escByte b1 b2 = false := by
      have h := parseHexByte_isSome b1 b2
      rw [hp] at h
      exact h.symm
    rw [decodeLoop.eq_def, escapesOkA.eq_def]
    simp [hp, he]
  | case4 rest h =>
    rw [decodeLoop.eq_def, escapesOkA.eq_def]
    match rest, h with
    | [], _ => simp
    | [a], _ => simp
    | a :: b :: t, h => exact absurd rfl (h a b t)
  | case5 b rest hb ih =>
    rw [decodeLoop.eq_def, escapesOkA.eq_def, rawDecode.eq_def]
    by_cases hrest : escapesOkA rest <;> simp [hb, hrest, ih]

/-- C2 (amended): the percent-escape decoder is a total function of the
input bytes; it returns the decoded byte sequence exactly when every `%`
is followed by an escape the number parser accepts — two hex digits, or a
plus sign and one hex digit, since `u8::from_str_radix` takes an optional
leading `+` — and the decoded bytes are valid UTF-8 text; in every other
case, including a trailing incomplete escape or invalid decoded text, it
returns `None`. -/
theorem c2_decode_assuan_data_characterization (l : List Nat) :
    decode_assuan_data l =
      if escapesOkA l && validUtf8 (rawDecode l) then some (rawDecode l)
      else none := by
  simp only [decode_assuan_data, decodeLoop_eq]
  by_cases h : escapesOkA l <;> by_cases hv : validUtf8 (rawDecode l) <;>
    simp [h, hv]

/-- C2 counterexample: `"%+5"` (bytes 37, 43, 53) contains a `%` that is
not followed by two hex digits, so per the claim the decoder should return
`None`; the code decodes it to the single byte 5 (`from_str_radix`
accepts the leading plus sign), which is valid text, and returns it. -/
theorem c2_counterexample_plus_escape :
    escapesOkStrict [37, 43, 53] = false
    ∧ decode_assuan_data [37, 43, 53] = some [5] := by decide

/-- C4: the password-only credential callback queries the secure-entry
agent first for the URL and falls back to the interactive terminal prompt
for the same URL exactly when the agent yields nothing; the first
non-absent result is returned, and the callback returns nothing iff both
sources are absent.  The last conjunct is the malformed-response scenario:
an agent answering `"D ab%4"` (a trailing incomplete escape) decodes to
nothing, so the terminal prompt decides. -/
theorem c4_password_only_fallback
    (agent promptPw : List Char → Option (List Nat))
    (url username : List Char) :
    (get_pw agent promptPw url username =
      match pinentry_get_pw agent url with
      | some secret => some secret
      | none => terminal_get_pw promptPw url)
    ∧ (get_pw agent promptPw url username = none
        ↔ pinentry_get_pw agent url = none
          ∧ terminal_get_pw promptPw url = none)
    ∧ get_pw (fun _ => some [68, 32, 97, 98, 37, 52]) promptPw url username
        = terminal_get_pw promptPw url := by
  refine ⟨?_, ?_, ?_⟩
  · cases h : pinentry_get_pw agent url <;> simp [get_pw, h, Option.orElse]
  · cases h : pinentry_get_pw agent url <;>
      cases ht : terminal_get_pw promptPw url <;>
        simp [get_pw, h, ht, Option.orElse]
  · have hp : pinentry_get_pw (fun _ : List Char => some [68, 32, 97, 98, 37, 52]) url = none := rfl
    simp [get_pw, hp, Option.orElse]

/-- C5: with a home directory, key discovery returns exactly the
subsequence of the three conventional key paths that exist as regular
files, preserving the fixed priority order (it is a sublist of the fixed
path list); with only `id_rsa` present among the three it returns the
single-element list `[".ssh/id_rsa"]` (home directory taken as the empty
path for the relative rendering of the scenario). -/
theorem c5_ssh_key_discovery (isFile : List Char → Bool)
    (home username : List Char) :
    (get_ssh_keys isFile (some home) username =
      [pathJoin (pathJoin home ".ssh".data) "id_ed25519_sk".data,
       pathJoin (pathJoin home ".ssh".data) "id_ed25519".data,
       pathJoin (pathJoin home ".ssh".data) "id_rsa".data].filter isFile)
    ∧ (get_ssh_keys isFile (some home) username).Sublist
        [pathJoin (pathJoin home ".ssh".data) "id_ed25519_sk".data,
         pathJoin (pathJoin home ".ssh".data) "id_ed25519".data,
         pathJoin (pathJoin home ".ssh".data) "id_rsa".data]
    ∧ get_ssh_keys (fun p => p == ".ssh/id_rsa".data) (some "".data) []
        = [".ssh/id_rsa".data] := by
  refine ⟨rfl, ?_, by decide⟩
  exact List.filter_sublist _

/-- Helper: one-step unfolding of `maxNat`. -/
theorem maxNat_cons (x : Nat) (xs : List Nat) :
    maxNat (x :: xs) =
      match maxNat xs with
      | none => some x
      | some m => some (max x m) := rfl

/-- Helper: `maxNat` is an upper bound for every member. -/
theorem maxNat_is_ub {a : Nat} {l : List Nat} (ha : a ∈ l) {m : Nat}
    (hm : maxNat l = some m) : a ≤ m := by
  induction l generalizing m with
  | nil => cases ha
  | cons x xs ih =>
    rw [maxNat_cons] at hm
    rcases List.mem_cons.mp ha with rfl | ha2
    · cases hx : maxNat xs with
      | none => rw [hx] at hm; simp at hm; omega
      | some m2 =>
        rw [hx] at hm
        simp at hm
        exact hm ▸ le_max_left a m2
    · cases hx : maxNat xs with
      | none =>
        cases xs with
        | nil => cases ha2
        | cons y ys =>
          rw [maxNat_cons] at hx
          revert hx
          cases maxNat ys <;> simp
      | some m2 =>
        rw [hx] at hm
        simp at hm
        exact le_trans (ih ha2 hx) (hm ▸ le_max_right x m2)

/-- Helper: width of the space padding. -/
theorem strWidth_replicate_space (w : Char → Nat) (hsp : w ' ' = 1)
    (k : Nat) : strWidth w (List.replicate k ' ') = k := by
  induction k with
  | zero => rfl
  | succ n ih =>
    simp_all [strWidth, List.replicate_succ]
    omega

/-- Helper: `strWidth` is additive over append. -/
theorem strWidth_append (w : Char → Nat) (s t : List Char) :
    strWidth w (s ++ t) = strWidth w s + strWidth w t := by
  simp [strWidth]

/-- C7: in a rendered report every name field is padded to the maximum
display width over all reference names (so for display widths 3, 7 and 1
every name field has width 7, as the witness instantiates), and the Tag
kind label is padded to the Branch label's width exactly when both kinds
appear, the shorter label being used otherwise. -/
theorem c7_column_alignment (w : Char → Nat) (hsp : w ' ' = 1)
    (refs_stats : List RefStatus) (s : RefStatus) (hmem : s ∈ refs_stats)
    (max_width : Nat)
    (hmax : maxNat (refs_stats.map (fun x => strWidth w x.ref_name))
      = some max_width) :
    strWidth w (paddedRefName w max_width s.ref_name) = max_width
    ∧ kindLabel true RefKind.Tag = "tag:    ".data
    ∧ (kindLabel true RefKind.Tag).length
        = (kindLabel true RefKind.Branch).length
    ∧ kindLabel false RefKind.Tag = "tag: ".data
    ∧ (kindLabel false RefKind.Tag).length
        < (kindLabel false RefKind.Branch).length := by
  refine ⟨?_, rfl, rfl, rfl, by decide⟩
  have hle : strWidth w s.ref_name ≤ max_width :=
    maxNat_is_ub (List.mem_map_of_mem (fun x => strWidth w x.ref_name) hmem) hmax
  rw [paddedRefName, strWidth_append, strWidth_replicate_space w hsp]
  omega

/-- Witness for C7 at the display widths 3, 7 and 1 of the claim: with all
characters one column wide, the three names `abc`, `abcdefg` and `z` all
render with a name field of width 7. -/
theorem c7_column_alignment_witness :
    strWidth (fun _ => 1) (paddedRefName (fun _ => 1) 7 "abc".data) = 7
    ∧ strWidth (fun _ => 1) (paddedRefName (fun _ => 1) 7 "abcdefg".data) = 7
    ∧ strWidth (fun _ => 1) (paddedRefName (fun _ => 1) 7 "z".data) = 7 := by
  refine ⟨?_, ?_, ?_⟩
  · exact (c7_column_alignment (fun _ => 1) rfl
      [⟨RefKind.Branch, "abc".data, TrackingStatus.Tracked, ImportStatus.New⟩,
       ⟨RefKind.Branch, "abcdefg".data, TrackingStatus.Tracked, ImportStatus.New⟩,
       ⟨RefKind.Tag, "z".data, TrackingStatus.NotApplicable, ImportStatus.New⟩]
      ⟨RefKind.Branch, "abc".data, TrackingStatus.Tracked, ImportStatus.New⟩
      (by decide) 7 (by decide)).1
  · exact (c7_column_alignment (fun _ => 1) rfl
      [⟨RefKind.Branch, "abc".data, TrackingStatus.Tracked, ImportStatus.New⟩,
       ⟨RefKind.Branch, "abcdefg".data, TrackingStatus.Tracked, ImportStatus.New⟩,
       ⟨RefKind.Tag, "z".data, TrackingStatus.NotApplicable, ImportStatus.New⟩]
      ⟨RefKind.Branch, "abcdefg".data, TrackingStatus.Tracked, ImportStatus.New⟩
      (by decide) 7 (by decide)).1
  · exact (c7_column_alignment (fun _ => 1) rfl
      [⟨RefKind.Branch, "abc".data, TrackingStatus.Tracked, ImportStatus.New⟩,
       ⟨RefKind.Branch, "abcdefg".data, TrackingStatus.Tracked, ImportStatus.New⟩,
       ⟨RefKind.Tag, "z".data, TrackingStatus.NotApplicable, ImportStatus.New⟩]
      ⟨RefKind.Tag, "z".data, TrackingStatus.NotApplicable, ImportStatus.New⟩
      (by decide) 7 (by decide)).1

/-- C6: the per-reference report is rendered only when the caller
requested it (`show_ref_stats`), an empty change set renders no reference
lines at all, and the full output is the reference lines followed by the
one-line abandoned-commit summary exactly when some commits were
abandoned. -/
theorem c6_report_gating (w : Char → Nat)
    (isTracking : List Char → List Char → Bool) (stats : GitImportStats)
    (show_ref_stats : Bool) :
    (print_git_import_stats w isTracking stats false =
      (if stats.abandoned_commits.isEmpty then []
       else [abandonedLine stats.abandoned_commits.length]))
    ∧ refLines w isTracking [] = []
    ∧ (print_git_import_stats w isTracking stats show_ref_stats =
        (if show_ref_stats then
          refLines w isTracking stats.changed_remote_refs
         else [])
        ++ (if stats.abandoned_commits.isEmpty then []
            else [abandonedLine stats.abandoned_commits.length]))
    ∧ (stats.abandoned_commits = [] ↔
        print_git_import_stats w isTracking stats show_ref_stats =
          (if show_ref_stats then
            refLines w isTracking stats.changed_remote_refs
           else [])) := by
  refine ⟨by simp [print_git_import_stats], rfl, rfl, ?_⟩
  constructor
  · intro h
    simp [print_git_import_stats, h]
  · intro h
    rw [print_git_import_stats] at h
    rcases he : stats.abandoned_commits.isEmpty with _ | _
    · rw [he] at h
      simp at h
    · exact List.isEmpty_iff.mp he

/-- Helper: intercalating a separator is the head followed by every tail
element prefixed by the separator. -/
theorem intercalate_cons_eq (sep a : List Char) (l : List (List Char)) :
    List.intercalate sep (a :: l)
      = a ++ (l.map (fun e => sep ++ e)).flatten := by
  induction l generalizing a with
  | nil => simp [List.intercalate, List.intersperse]
  | cons b t ih =>
    have h1 : List.intercalate sep (a :: b :: t)
        = a ++ sep ++ List.intercalate sep (b :: t) := by
      simp [List.intercalate, List.intersperse]
    rw [h1, ih b]
    simp

/-- C8: for a non-empty list of failed reference exports the diagnostic
output is a header, then per failure the reference name followed by every
error of its causal chain joined by `": "`, then the fixed hint exactly
when some failure's reason is the refused-to-set kind; an empty list
prints nothing.  The last conjunct is the scenario of the claim: the chain
`["ref update rejected", "non-fast-forward"]` renders as
`"<name>: ref update rejected: non-fast-forward"`. -/
theorem c8_failed_export_diagnostics (f : FailedRefExport)
    (fs : List FailedRefExport) (g : FailedRefExport) :
    (print_failed_git_export [] = [])
    ∧ (print_failed_git_export (f :: fs) =
        "Failed to export some branches:".data
          :: (f :: fs).map failedLine
          ++ (if (f :: fs).any (fun x => x.failed_to_set) then [failedHint]
              else []))
    ∧ (failedLine g
        = "  ".data ++ List.intercalate ": ".data (g.name :: g.reason_chain))
    ∧ failedLine
        { name := "n".data,
          reason_chain :=
            ["ref update rejected".data, "non-fast-forward".data],
          failed_to_set := false }
        = "  n: ref update rejected: non-fast-forward".data := by
  refine ⟨rfl, by simp [print_failed_git_export], ?_, by decide⟩
  rw [failedLine, intercalate_cons_eq]
  simp

/-- C9 counterexample: with home directory `/home/u`, expanding `~//etc`
does not substitute the home directory for the `~/` prefix — `Path::join`
replaces the base entirely because the remainder `/etc` is itself
absolute — so the result is `/etc`, not `/home/u//etc`. -/
theorem c9_counterexample_absolute_remainder :
    expand_git_path (some "/home/u".data) "~//etc".data = "/etc".data
    ∧ "/etc".data ≠ "/home/u".data ++ "/".data ++ "/etc".data := by
  decide

/-- C9 (amended): with `HOME` set, a path with the literal leading `~/`
prefix whose remainder is relative expands to the home directory, a
separator and the remainder (the claimed substitution, stated for a
non-empty home directory without a trailing separator); when the remainder
itself starts with `/` the join drops the home directory and yields the
remainder alone; every path without the `~/` prefix is unchanged. -/
theorem c9_expand_git_path_amended (home rest path : List Char) :
    (rest.head? ≠ some '/' → home ≠ [] → home.getLast? ≠ some '/' →
      expand_git_path (some home) ("~/".data ++ rest) = home ++ '/' :: rest)
    ∧ (rest.head? = some '/' →
      expand_git_path (some home) ("~/".data ++ rest) = rest)
    ∧ (stripPrefixList "~/".data path = none →
      expand_git_path (some home) path = path) := by
  refine ⟨?_, ?_, ?_⟩
  · intro h1 h2 h3
    simp [expand_git_path, stripPrefixList, pathJoin, h1, h2, h3]
  · intro h1
    simp [expand_git_path, stripPrefixList, pathJoin, h1]
  · intro h
    rw [expand_git_path, h]

/-- Witness for C9 (amended) at the spec scenario: with home `/home/u`,
`~/config` expands to `/home/u/config` and `/abs/path` is unchanged. -/
theorem c9_expand_git_path_amended_witness :
    expand_git_path (some "/home/u".data) "~/config".data
      = "/home/u/config".data
    ∧ expand_git_path (some "/home/u".data) "/abs/path".data
      = "/abs/path".data := by
  constructor
  · exact (c9_expand_git_path_amended "/home/u".data "config".data []).1
      (by decide) (by decide) (by decide)
  · exact (c9_expand_git_path_amended "/home/u".data [] "/abs/path".data).2.2
      (by decide)

/-- C10: expansion leaves the path unchanged when `HOME` is unset (even
with the literal `~/` prefix), and only the exact two-character `~/`
prefix is ever expanded — any path that does not strip that prefix (such
as `~` alone or `~user/config`) is returned unchanged regardless of
`HOME`. -/
theorem c10_no_home_no_partial_tilde (home : Option (List Char))
    (path : List Char) :
    (expand_git_path none path = path)
    ∧ (stripPrefixList "~/".data path = none →
      expand_git_path home path = path) := by
  constructor
  · rw [expand_git_path]
    cases h : stripPrefixList "~/".data path <;> simp
  · intro h
    rw [expand_git_path, h]

/-- Witness for C10: `~/config` with `HOME` unset, and `~` and
`~user/config` with `HOME` set, are all returned unchanged. -/
theorem c10_no_home_no_partial_tilde_witness :
    expand_git_path none "~/config".data = "~/config".data
    ∧ expand_git_path (some "/home/u".data) "~".data = "~".data
    ∧ expand_git_path (some "/home/u".data) "~user/config".data
      = "~user/config".data := by
  refine ⟨(c10_no_home_no_partial_tilde none "~/config".data).1,
    (c10_no_home_no_partial_tilde (some "/home/u".data) "~".data).2
      (by decide),
    (c10_no_home_no_partial_tilde (some "/home/u".data) "~user/config".data).2
      (by decide)⟩
